import Mathlib

set_option maxHeartbeats 1000000

/-!
Verification development for the rancher-management-service metadata
caching repository (package rancher, metadata cache source file).

The Go code is shallowly embedded as pure Lean functions:

- Go structs Container and Host become Lean structures; Container embeds
  Host exactly as the Go struct does (the fields c.Host.UUID and
  c.Host.Name of the source are c.host.uuid and c.host.name here).
- The Go maps map[string]*Container and map[string]*Host become
  association lists (List (String times value)) with mapInsert replacing
  an existing binding in place and appending a fresh one; mapFind models
  Go map lookup, and the length-zero emptiness tests of the source map
  to length-zero tests on the association list.
- The remote fetches performed through ClientService
  (MetadataContainers and MetadataHosts) are not part of this file's
  subject; each refresh operation takes the fetch outcome as an explicit
  Except String argument, mirroring the (value, error) pair the Go call
  returns.
- In the Go source the enrichment loop of cachePopulateEvery mutates the
  shared *Container objects in place; since the container slice and the
  name-indexed map always hold pointers to the same objects (the map is
  only ever built from the slice just fetched, and both start empty),
  this in-place mutation is modelled by applying the same per-container
  transformation to the slice and to the map values.
- cachePopulateCycle models one execution of the body of
  cachePopulateEvery (both refreshes, then enrichment); the trailing
  time.AfterFunc self-rescheduling only repeats this body. The two
  refreshes run under a WaitGroup in the source but write disjoint
  fields, so their sequential composition here yields the same state.
- Runtime faults (failing interface type assertions in the UnmarshalJSON
  methods) are modelled by the GoPanic error of an Except: an .error
  GoPanic.typeAssertion result stands for a Go panic, which is distinct
  from returning a decode error.
-/

/-- A JSON value as decoded by Go's encoding/json into interface values.
Only scalar field values are modelled: the claims under study distinguish
strings from null/absent and from any non-string value, and every
non-string scalar behaves identically under the source's string type
assertions (Go decodes numbers as float64; the numeric payload is
irrelevant here, so an Int carrier is used). -/
inductive JValue where
  | null
  | bool (b : Bool)
  | num (n : Int)
  | str (s : String)
deriving DecidableEq

/-- True exactly for the null value, which models both an absent key and
an explicit JSON null: Go map indexing yields a nil interface for both. -/
def JValue.isNull : JValue → Bool
  | JValue.null => true
  | _ => false

/-- A Go runtime fault. The only one arising in the embedded code is a
failing interface type assertion, as in data["name"].(string). -/
inductive GoPanic where
  | typeAssertion
deriving DecidableEq

/-- Go map access data[k] on the map produced by json.Unmarshal into
map[string]interface: the last occurrence of a duplicated key wins, and
a missing key yields the nil interface (JValue.null here). -/
def jLookup (data : List (String × JValue)) (k : String) : JValue :=
  (data.foldl (fun acc p => if p.1 = k then some p.2 else acc)
    (none : Option JValue)).getD JValue.null

/-- The type assertion v.(string): yields the string, or faults at
runtime on any non-string value (including the nil interface). -/
def asString : JValue → Except GoPanic String
  | JValue.str s => Except.ok s
  | _ => Except.error GoPanic.typeAssertion

/-- Accumulate the value of a base-10 digit string; none on any
non-digit character, as in Go's strconv.ParseUint with base 10. -/
def digitsToNat : List Char → Nat → Option Nat
  | [], acc => some acc
  | c :: rest, acc =>
      if c.isDigit then digitsToNat rest (acc * 10 + (c.toNat - 48)) else none

/-- The value component of Go's strconv.ParseInt(s, 10, 64), whose error
component the source discards: 0 on an empty or malformed string, the
exact value of an in-range base-10 numeral with optional sign, and the
int64 saturation values on out-of-range numerals (Go returns
MaxInt64 resp. MinInt64 together with ErrRange). -/
def parseIntGo (s : String) : Int :=
  match s.data with
  | [] => 0
  | c :: rest =>
    let neg : Bool := c = '-'
    let ds : List Char := if c = '-' ∨ c = '+' then rest else c :: rest
    if ds.isEmpty then 0
    else
      match digitsToNat ds 0 with
      | none => 0
      | some n =>
        if neg then
          if n > 2 ^ 63 then -(2 ^ 63) else -(n : Int)
        else
          if n ≥ 2 ^ 63 then 2 ^ 63 - 1 else (n : Int)

/-- Host is the Rancher host representation of the source: UUID (the
internal Rancher uuid, the primary lookup key) and Name (the hostname). -/
structure Host where
  uuid : String
  name : String
deriving DecidableEq

/-- Container is the Rancher container representation of the source:
Name, State, PrivateIP, ServiceIndex (int64, 0 meaning orphaned) and the
embedded Host struct carrying the host UUID and, after enrichment, the
host display name. -/
structure Container where
  name : String
  state : String
  privateIP : String
  serviceIndex : Int
  host : Host
deriving DecidableEq

/-- Container.UnmarshalJSON of the source, applied to an already decoded
top-level JSON object (the claims under study concern objects that
decode into map[string]interface, so the outer json.Unmarshal error path
is not in scope). The receiver is the zero-valued Container freshly
allocated by the surrounding array decode, so the embedded host name
starts empty. Required keys name, state and primary_ip go through bare
string type assertions (a runtime fault on a missing key or non-string
value); service_index and host_uuid are guarded by a nil check and left
at their zero values when absent or null, with service_index parsed by
strconv.ParseInt whose error is discarded. -/
def Container.unmarshalJSON (data : List (String × JValue)) :
    Except GoPanic Container := do
  let nm ← asString (jLookup data "name")
  let st ← asString (jLookup data "state")
  let ip ← asString (jLookup data "primary_ip")
  let si ←
    if (jLookup data "service_index").isNull then
      pure (0 : Int)
    else do
      let s ← asString (jLookup data "service_index")
      pure (parseIntGo s)
  let hu ←
    if (jLookup data "host_uuid").isNull then
      pure ""
    else
      asString (jLookup data "host_uuid")
  pure { name := nm, state := st, privateIP := ip, serviceIndex := si,
         host := { uuid := hu, name := "" } }

/-- Host.UnmarshalJSON of the source, applied to an already decoded
top-level JSON object: both uuid and name go through bare string type
assertions, so a missing key or non-string value is a runtime fault. -/
def Host.unmarshalJSON (data : List (String × JValue)) :
    Except GoPanic Host := do
  let u ← asString (jLookup data "uuid")
  let nm ← asString (jLookup data "name")
  pure { uuid := u, name := nm }

/-- The business errors of the source, one constructor per errors.New
package-level value. -/
inductive rancherError where
  | ErrContainerNotFound
  | ErrContainerRepoEmpty
  | ErrHostNotFound
  | ErrHostRepoEmpty
  | ErrNotImplemented
deriving DecidableEq

/-- Go map assignment m[k] = v on an association-list model: replace the
binding in place when the key is present, append it otherwise. -/
def mapInsert {α : Type} (m : List (String × α)) (k : String) (v : α) :
    List (String × α) :=
  match m with
  | [] => [(k, v)]
  | (k', v') :: rest =>
      if k' = k then (k, v) :: rest else (k', v') :: mapInsert rest k v

/-- Go map lookup m[k] on the association-list model. -/
def mapFind {α : Type} (m : List (String × α)) (k : String) : Option α :=
  match m with
  | [] => none
  | (k', v) :: rest => if k' = k then some v else mapFind rest k

/-- The map-building loop of both refresh operations: starting from an
empty map, insert every element of the fetched slice in order under its
key. -/
def buildMapBy {α : Type} (key : α → String) (l : List α) :
    List (String × α) :=
  l.foldl (fun m x => mapInsert m (key x) x) []

/-- The loop of refreshContainers: cm[c.Name] = c over the fetched
containers in slice order. -/
def buildContainerMap (cs : List Container) : List (String × Container) :=
  buildMapBy (fun c => c.name) cs

/-- The loop of refreshHosts: hm[h.UUID] = h over the fetched hosts in
slice order. -/
def buildHostMap (hs : List Host) : List (String × Host) :=
  buildMapBy (fun h => h.uuid) hs

/-- The state of the metadataCachingRepository of the source: the two
entity collections together with their key-indexed lookup maps. -/
structure metadataCachingRepository where
  containers : List Container
  containerMap : List (String × Container)
  hosts : List Host
  hostMap : List (String × Host)
deriving DecidableEq

/-- The state built by NewMetadataCachingRepository before its immediate
cachePopulateEvery call: both collections and both maps empty. -/
def newMetadataCachingRepository : metadataCachingRepository :=
  { containers := [], containerMap := [], hosts := [], hostMap := [] }

/-- ContainerByName of the source: ErrContainerRepoEmpty when the name
index has length zero, ErrContainerNotFound when the name misses the
index, and the indexed container otherwise. -/
def ContainerByName (mcr : metadataCachingRepository) (nm : String) :
    Except rancherError Container :=
  if mcr.containerMap.length = 0 then
    Except.error rancherError.ErrContainerRepoEmpty
  else
    match mapFind mcr.containerMap nm with
    | none => Except.error rancherError.ErrContainerNotFound
    | some c => Except.ok c

/-- Containers of the source: it always returns the current snapshot
slice, and sets the error to ErrContainerRepoEmpty exactly when that
slice has length zero (the Go signature returns both values; the pair
keeps that shape, with none standing for the nil error). -/
def Containers (mcr : metadataCachingRepository) :
    List Container × Option rancherError :=
  (mcr.containers,
    if mcr.containers.length = 0 then some rancherError.ErrContainerRepoEmpty
    else none)

/-- HostByUUID of the source: ErrHostRepoEmpty when the uuid index has
length zero, ErrHostNotFound when the uuid misses the index, and the
indexed host otherwise. -/
def HostByUUID (mcr : metadataCachingRepository) (u : String) :
    Except rancherError Host :=
  if mcr.hostMap.length = 0 then
    Except.error rancherError.ErrHostRepoEmpty
  else
    match mapFind mcr.hostMap u with
    | none => Except.error rancherError.ErrHostNotFound
    | some h => Except.ok h

/-- Hosts of the source: the current snapshot slice, with the error set
to ErrHostRepoEmpty exactly when it has length zero. -/
def Hosts (mcr : metadataCachingRepository) :
    List Host × Option rancherError :=
  (mcr.hosts,
    if mcr.hosts.length = 0 then some rancherError.ErrHostRepoEmpty
    else none)

/-- The first field assignment of the goroutine body inside
refreshContainers: mcr.containerMap = cm. -/
def writeContainerMapStep (mcr : metadataCachingRepository)
    (cm : List (String × Container)) : metadataCachingRepository :=
  { mcr with containerMap := cm }

/-- The second field assignment of the goroutine body inside
refreshContainers: mcr.containers = cs. -/
def writeContainersStep (mcr : metadataCachingRepository)
    (cs : List Container) : metadataCachingRepository :=
  { mcr with containers := cs }

/-- refreshContainers of the source: on a fetch error, return with the
state untouched (and no error surfaced anywhere, the Go method has no
return values); on success, build the name index from the fetched slice
and perform the two field assignments of the goroutine body, index
first, slice second. The channel handshake of the source merely makes
the caller wait for both assignments, so the completed operation is
their sequential composition. -/
def refreshContainers (mcr : metadataCachingRepository)
    (fetched : Except String (List Container)) : metadataCachingRepository :=
  match fetched with
  | Except.error _ => mcr
  | Except.ok cs =>
      writeContainersStep (writeContainerMapStep mcr (buildContainerMap cs)) cs

/-- The first field assignment of the goroutine body inside
refreshHosts: mcr.hostMap = hm. -/
def writeHostMapStep (mcr : metadataCachingRepository)
    (hm : List (String × Host)) : metadataCachingRepository :=
  { mcr with hostMap := hm }

/-- The second field assignment of the goroutine body inside
refreshHosts: mcr.hosts = hs. -/
def writeHostsStep (mcr : metadataCachingRepository)
    (hs : List Host) : metadataCachingRepository :=
  { mcr with hosts := hs }

/-- refreshHosts of the source, exactly parallel to refreshContainers:
no-op on a fetch error, otherwise build the uuid index and assign the
index then the slice. -/
def refreshHosts (mcr : metadataCachingRepository)
    (fetched : Except String (List Host)) : metadataCachingRepository :=
  match fetched with
  | Except.error _ => mcr
  | Except.ok hs =>
      writeHostsStep (writeHostMapStep mcr (buildHostMap hs)) hs

/-- One iteration of the enrichment loop of cachePopulateEvery: look the
container's host uuid up through HostByUUID and, only when that lookup
returns without error, set the embedded host name to the found host's
name. -/
def enrichContainer (mcr : metadataCachingRepository) (c : Container) :
    Container :=
  match HostByUUID mcr c.host.uuid with
  | Except.ok h => { c with host := { c.host with name := h.name } }
  | Except.error _ => c

/-- The enrichment phase of cachePopulateEvery: cs, _ = mcr.Containers()
with the error discarded, then the loop over cs. The loop mutates the
shared container objects in place, so both the slice and the name index
(whose values are pointers into that same slice) observe the updated
host names; the model applies the identical transformation to both. -/
def enrichContainers (mcr : metadataCachingRepository) :
    metadataCachingRepository :=
  { mcr with
    containers := (Containers mcr).1.map (enrichContainer mcr),
    containerMap := mcr.containerMap.map
      (fun kv => (kv.1, enrichContainer mcr kv.2)) }

/-- One execution of the body of cachePopulateEvery: both refreshes
(concurrent in the source, but writing disjoint fields, so their
sequential composition is their joint outcome), then enrichment after
both have completed. The time.AfterFunc call at the end of the source
merely schedules the next execution of this same body. -/
def cachePopulateCycle (mcr : metadataCachingRepository)
    (containerFetch : Except String (List Container))
    (hostFetch : Except String (List Host)) : metadataCachingRepository :=
  enrichContainers (refreshHosts (refreshContainers mcr containerFetch) hostFetch)

/-- A container with its derived, cache-written host-name field blanked;
two containers equal after scrubHostName carry identical
upstream-sourced fields (name, state, privateIP, serviceIndex, host
uuid). -/
def scrubHostName (c : Container) : Container :=
  { c with host := { c.host with name := "" } }

/-- The pair of shared fields a container-side reader consults: the
published slice and its name index. -/
def observedContainerPair (mcr : metadataCachingRepository) :
    List Container × List (String × Container) :=
  (mcr.containers, mcr.containerMap)

/-- The last element of l whose key equals k, in list order; the
reference value a last-write-wins index must store. -/
def lastMatchBy {α : Type} (key : α → String) (l : List α) (k : String) :
    Option α :=
  match l with
  | [] => none
  | x :: rest =>
      match lastMatchBy key rest k with
      | some y => some y
      | none => if key x = k then some x else none

/-- Concrete witness data shared by several claim instantiations: the
host of the specification scenario. -/
def hostScenario : Host := { uuid := "H1", name := "host-1" }

/-- Concrete witness data: the container of the specification scenario,
as produced by a fresh decode (empty embedded host name). -/
def contScenario : Container :=
  { name := "a", state := "running", privateIP := "10.0.0.1",
    serviceIndex := 0, host := { uuid := "H1", name := "" } }

/-- Concrete witness data: the container list of the scenario. -/
def csScenario : List Container := [contScenario]

/-- Concrete witness data: the host list of the scenario. -/
def hsScenario : List Host := [hostScenario]

/-- Concrete witness data: a repository populated with the scenario
lists, with both indexes built the way the refresh operations build
them. -/
def repoPopulated : metadataCachingRepository :=
  { containers := csScenario, containerMap := buildContainerMap csScenario,
    hosts := hsScenario, hostMap := buildHostMap hsScenario }

/-- Concrete data for the atomicity analysis: the container published
before the interrupted refresh. -/
def contBefore : Container :=
  { name := "old", state := "running", privateIP := "10.0.0.9",
    serviceIndex := 1, host := { uuid := "H0", name := "" } }

/-- Concrete data for the atomicity analysis: the container delivered by
the interrupting refresh. -/
def contAfter : Container :=
  { name := "new", state := "running", privateIP := "10.0.0.2",
    serviceIndex := 2, host := { uuid := "H1", name := "" } }

/-- Concrete data for the atomicity analysis: the repository state
before the interrupted refresh. -/
def repoBefore : metadataCachingRepository :=
  { containers := [contBefore], containerMap := buildContainerMap [contBefore],
    hosts := [], hostMap := [] }


/-- Concrete witness data: a second container carrying the same name as
the scenario container, for exercising last-write-wins indexing. -/
def contDup : Container :=
  { name := "a", state := "stopped", privateIP := "10.0.0.3",
    serviceIndex := 2, host := { uuid := "H2", name := "" } }

/-- Concrete witness data: a second host carrying the same uuid as the
scenario host, for exercising last-write-wins indexing. -/
def hostDup : Host := { uuid := "H1", name := "host-2" }

theorem mapFind_mapInsert {α : Type} (m : List (String × α)) (k k' : String)
    (v : α) :
    mapFind (mapInsert m k v) k' = if k' = k then some v else mapFind m k' := by
  induction m with
  | nil =>
    by_cases h : k' = k
    · subst h; simp [mapInsert, mapFind]
    · have h2 : ¬ k = k' := fun hh => h hh.symm
      simp [mapInsert, mapFind, h, h2]
  | cons p rest ih =>
    obtain ⟨pk, pv⟩ := p
    by_cases hpk : pk = k
    · subst hpk
      by_cases h : k' = pk
      · subst h; simp [mapInsert, mapFind]
      · have h2 : ¬ pk = k' := fun hh => h hh.symm
        simp [mapInsert, mapFind, h, h2]
    · by_cases h : k' = k
      · subst h
        simp [mapInsert, mapFind, hpk, ih]
      · by_cases h3 : pk = k'
        · subst h3
          simp [mapInsert, mapFind, hpk, h]
        · simp [mapInsert, mapFind, hpk, h, h3, ih]

theorem mapFind_foldl_mapInsert {α : Type} (key : α → String) (l : List α)
    (m0 : List (String × α)) (k : String) :
    mapFind (l.foldl (fun m x => mapInsert m (key x) x) m0) k =
      match lastMatchBy key l k with
      | some y => some y
      | none => mapFind m0 k := by
  induction l generalizing m0 with
  | nil => simp [lastMatchBy]
  | cons x rest ih =>
    simp only [List.foldl_cons, lastMatchBy]
    rw [ih]
    cases h : lastMatchBy key rest k with
    | some y => simp
    | none =>
      rw [mapFind_mapInsert]
      by_cases hk : key x = k
      · subst hk; simp
      · have hk2 : ¬ k = key x := fun hh => hk hh.symm
        simp [hk, hk2]

theorem mapFind_buildContainerMap (cs : List Container) (k : String) :
    mapFind (buildContainerMap cs) k = lastMatchBy (fun c => c.name) cs k := by
  rw [buildContainerMap, buildMapBy,
    mapFind_foldl_mapInsert (fun c : Container => c.name) cs [] k]
  cases lastMatchBy (fun c : Container => c.name) cs k <;> simp [mapFind]

theorem mapFind_buildHostMap (hs : List Host) (k : String) :
    mapFind (buildHostMap hs) k = lastMatchBy (fun h => h.uuid) hs k := by
  rw [buildHostMap, buildMapBy,
    mapFind_foldl_mapInsert (fun h : Host => h.uuid) hs [] k]
  cases lastMatchBy (fun h : Host => h.uuid) hs k <;> simp [mapFind]

theorem lastMatchBy_mem {α : Type} (key : α → String) (l : List α)
    (k : String) (y : α) :
    lastMatchBy key l k = some y → y ∈ l ∧ key y = k := by
  induction l with
  | nil => simp [lastMatchBy]
  | cons x rest ih =>
    simp only [lastMatchBy]
    cases h : lastMatchBy key rest k with
    | some z =>
      intro hz
      have hzy : z = y := by simpa using hz
      subst hzy
      exact ⟨List.mem_cons_of_mem _ (ih h).1, (ih h).2⟩
    | none =>
      by_cases hk : key x = k
      · intro hy
        have hxy : x = y := by simpa [hk] using hy
        subst hxy
        exact ⟨List.mem_cons_self _ _, hk⟩
      · simp [hk]

theorem lastMatchBy_eq_none_iff {α : Type} (key : α → String) (l : List α)
    (k : String) :
    lastMatchBy key l k = none ↔ ∀ x ∈ l, key x ≠ k := by
  induction l with
  | nil => simp [lastMatchBy]
  | cons x rest ih =>
    simp only [lastMatchBy]
    cases h : lastMatchBy key rest k with
    | some z =>
      have hz := lastMatchBy_mem key rest k z h
      constructor
      · intro hfalse; exact absurd hfalse (by simp)
      · intro hall
        exact absurd hz.2 (hall z (List.mem_cons_of_mem _ hz.1))
    | none =>
      by_cases hk : key x = k
      · simp only [hk, if_pos rfl]
        constructor
        · intro hfalse; exact absurd hfalse (by simp)
        · intro hall; exact absurd hk (hall x (List.mem_cons_self _ _))
      · simp only [if_neg hk]
        constructor
        · intro _ y hy
          rcases List.mem_cons.mp hy with hyx | hyr
          · subst hyx; exact hk
          · exact (ih.mp h) y hyr
        · intro _; trivial

theorem mem_keys_mapInsert {α : Type} (m : List (String × α)) (k : String)
    (v : α) (a : String) :
    a ∈ (mapInsert m k v).map Prod.fst ↔ a ∈ m.map Prod.fst ∨ a = k := by
  induction m with
  | nil => simp [mapInsert]
  | cons p rest ih =>
    obtain ⟨pk, pv⟩ := p
    by_cases hpk : pk = k
    · subst hpk
      simp [mapInsert]
      tauto
    · simp [mapInsert, hpk, ih]
      tauto

theorem nodup_keys_mapInsert {α : Type} (m : List (String × α)) (k : String)
    (v : α) (hnd : (m.map Prod.fst).Nodup) :
    ((mapInsert m k v).map Prod.fst).Nodup := by
  induction m with
  | nil => simp [mapInsert]
  | cons p rest ih =>
    obtain ⟨pk, pv⟩ := p
    simp only [List.map_cons, List.nodup_cons] at hnd
    by_cases hpk : pk = k
    · subst hpk
      simpa [mapInsert] using hnd
    · have hrest := ih hnd.2
      simp only [mapInsert, if_neg hpk, List.map_cons, List.nodup_cons]
      refine ⟨?_, hrest⟩
      intro hmem
      rcases (mem_keys_mapInsert rest k v pk).mp hmem with hc | hc
      · exact hnd.1 hc
      · exact hpk hc

theorem nodup_keys_buildMapBy {α : Type} (key : α → String) (l : List α) :
    ((buildMapBy key l).map Prod.fst).Nodup := by
  have hgen : ∀ (l' : List α) (m0 : List (String × α)),
      (m0.map Prod.fst).Nodup →
      ((l'.foldl (fun m x => mapInsert m (key x) x) m0).map Prod.fst).Nodup := by
    intro l'
    induction l' with
    | nil => intro m0 h; simpa using h
    | cons x rest ih =>
      intro m0 h
      exact ih (mapInsert m0 (key x) x) (nodup_keys_mapInsert m0 (key x) x h)
  exact hgen l [] (by simp)

theorem enrichContainer_eq (mcr : metadataCachingRepository) (c : Container) :
    enrichContainer mcr c =
      match mapFind mcr.hostMap c.host.uuid with
      | some h => { c with host := { c.host with name := h.name } }
      | none => c := by
  rw [enrichContainer, HostByUUID]
  by_cases hlen : mcr.hostMap.length = 0
  · have hnil : mcr.hostMap = [] := List.length_eq_zero.mp hlen
    simp [hlen, hnil, mapFind]
  · simp only [if_neg hlen]
    cases mapFind mcr.hostMap c.host.uuid <;> simp

theorem enrichContainer_host_uuid (mcr : metadataCachingRepository)
    (c : Container) : (enrichContainer mcr c).host.uuid = c.host.uuid := by
  rw [enrichContainer_eq]
  cases mapFind mcr.hostMap c.host.uuid <;> simp

theorem scrubHostName_enrichContainer (mcr : metadataCachingRepository)
    (c : Container) :
    scrubHostName (enrichContainer mcr c) = scrubHostName c := by
  rw [enrichContainer_eq]
  cases mapFind mcr.hostMap c.host.uuid <;> simp [scrubHostName]

theorem map_scrub_enrich (mcr : metadataCachingRepository)
    (l : List Container) :
    (l.map (enrichContainer mcr)).map scrubHostName = l.map scrubHostName := by
  induction l with
  | nil => rfl
  | cons c rest ih => simp [scrubHostName_enrichContainer, ih]

theorem map_kv_scrub_enrich (mcr : metadataCachingRepository)
    (l : List (String × Container)) :
    ((l.map (fun kv => (kv.1, enrichContainer mcr kv.2))).map
        (fun kv => (kv.1, scrubHostName kv.2))) =
      l.map (fun kv => (kv.1, scrubHostName kv.2)) := by
  induction l with
  | nil => rfl
  | cons kv rest ih => simp [scrubHostName_enrichContainer, ih]

theorem enrichContainer_of_hostMap_nil (mcr : metadataCachingRepository)
    (hnil : mcr.hostMap = []) (c : Container) : enrichContainer mcr c = c := by
  rw [enrichContainer_eq, hnil]
  simp [mapFind]

theorem map_enrich_id_of_hostMap_nil (mcr : metadataCachingRepository)
    (hnil : mcr.hostMap = []) (l : List Container) :
    l.map (enrichContainer mcr) = l := by
  induction l with
  | nil => rfl
  | cons c rest ih => simp [enrichContainer_of_hostMap_nil mcr hnil, ih]

/-- Claim C1: for every prior cache state, if the upstream fetch invoked
by refreshContainers (resp. refreshHosts) returns an error, the call
leaves the whole repository state exactly as it was, so the container
collection and its name index (resp. the host collection and its uuid
index) are unchanged, every lookup through ContainerByName, Containers,
HostByUUID and Hosts observes the previous snapshot, and no error is
surfaced anywhere (the refresh operations return no error by type). -/
theorem c1_refresh_failure_preserves_snapshot
    (mcr : metadataCachingRepository) (e e2 nm u : String) :
    refreshContainers mcr (Except.error e) = mcr ∧
    refreshHosts mcr (Except.error e2) = mcr ∧
    ContainerByName (refreshContainers mcr (Except.error e)) nm =
      ContainerByName mcr nm ∧
    Containers (refreshContainers mcr (Except.error e)) = Containers mcr ∧
    HostByUUID (refreshHosts mcr (Except.error e2)) u = HostByUUID mcr u ∧
    Hosts (refreshHosts mcr (Except.error e2)) = Hosts mcr :=
  ⟨rfl, rfl, rfl, rfl, rfl, rfl⟩

/-- Claim C3: ContainerByName returns ErrContainerRepoEmpty exactly when
the name index is empty; on a non-empty index it returns
ErrContainerNotFound exactly when the name is absent from the index (so
the empty-string name on a populated repository whose index lacks it
yields ErrContainerNotFound, never ErrContainerRepoEmpty, as the witness
instantiates); and it returns precisely the container stored under the
name otherwise. -/
theorem c3_container_by_name_semantics (mcr : metadataCachingRepository)
    (nm : String) (c : Container) :
    (mcr.containerMap = [] →
      ContainerByName mcr nm = Except.error rancherError.ErrContainerRepoEmpty) ∧
    (ContainerByName mcr nm = Except.error rancherError.ErrContainerRepoEmpty →
      mcr.containerMap = []) ∧
    (mcr.containerMap ≠ [] → mapFind mcr.containerMap nm = none →
      ContainerByName mcr nm = Except.error rancherError.ErrContainerNotFound) ∧
    (ContainerByName mcr nm = Except.error rancherError.ErrContainerNotFound →
      mcr.containerMap ≠ [] ∧ mapFind mcr.containerMap nm = none) ∧
    (mapFind mcr.containerMap nm = some c →
      ContainerByName mcr nm = Except.ok c) ∧
    (ContainerByName mcr nm = Except.ok c →
      mapFind mcr.containerMap nm = some c) := by
  refine ⟨?_, ?_, ?_, ?_, ?_, ?_⟩
  · intro hnil
    simp [ContainerByName, hnil]
  · intro hcon
    by_cases hlen : mcr.containerMap.length = 0
    · exact List.length_eq_zero.mp hlen
    · rcases hfind : mapFind mcr.containerMap nm with _ | c0 <;>
        simp [ContainerByName, hlen, hfind] at hcon
  · intro hne hfind
    have hlen : ¬ mcr.containerMap.length = 0 := by
      intro hh; exact hne (List.length_eq_zero.mp hh)
    simp [ContainerByName, hlen, hfind]
  · intro hcon
    by_cases hlen : mcr.containerMap.length = 0
    · simp [ContainerByName, hlen] at hcon
    · have hne : mcr.containerMap ≠ [] := by
        intro hh; exact hlen (by simp [hh])
      rcases hfind : mapFind mcr.containerMap nm with _ | c0
      · exact ⟨hne, rfl⟩
      · simp [ContainerByName, hlen, hfind] at hcon
  · intro hfind
    have hne : mcr.containerMap ≠ [] := by
      intro hh
      rw [hh] at hfind
      simp [mapFind] at hfind
    have hlen : ¬ mcr.containerMap.length = 0 := by
      intro hh; exact hne (List.length_eq_zero.mp hh)
    simp [ContainerByName, hlen, hfind]
  · intro hok
    by_cases hlen : mcr.containerMap.length = 0
    · simp [ContainerByName, hlen] at hok
    · rcases hfind : mapFind mcr.containerMap nm with _ | c0
      · simp [ContainerByName, hlen, hfind] at hok
      · have hc0 : c0 = c := by
          simpa [ContainerByName, hlen, hfind] using hok
        subst hc0
        rfl

/-- Witness for claim C3 at concrete inputs: on the populated scenario
repository the empty-string lookup yields ErrContainerNotFound, the name
of the stored container is found, and on the freshly constructed (never
refreshed) repository the same lookup yields ErrContainerRepoEmpty. -/
theorem c3_container_by_name_semantics_witness :
    ContainerByName repoPopulated "" =
      Except.error rancherError.ErrContainerNotFound ∧
    ContainerByName repoPopulated "a" = Except.ok contScenario ∧
    ContainerByName newMetadataCachingRepository "" =
      Except.error rancherError.ErrContainerRepoEmpty :=
  ⟨(c3_container_by_name_semantics repoPopulated "" contScenario).2.2.1
      (by decide) (by decide),
   (c3_container_by_name_semantics repoPopulated "a" contScenario).2.2.2.2.1
      (by decide),
   (c3_container_by_name_semantics newMetadataCachingRepository ""
      contScenario).1 (by decide)⟩

/-- Claim C4: Containers (and symmetrically Hosts) returns the
repository-empty error exactly when the current snapshot slice has
length zero, whatever the reason for its emptiness, and otherwise the
full snapshot with no error; on the freshly constructed repository, and
after a cycle in which both fetches fail, both return the
repository-empty error, and a successful fetch of zero entities also
yields the repository-empty error. -/
theorem c4_bulk_lookup_empty_semantics (mcr : metadataCachingRepository)
    (e1 e2 : String) :
    (Containers mcr).1 = mcr.containers ∧
    ((Containers mcr).2 = some rancherError.ErrContainerRepoEmpty ↔
      mcr.containers = []) ∧
    ((Containers mcr).2 = none ↔ mcr.containers ≠ []) ∧
    (Hosts mcr).1 = mcr.hosts ∧
    ((Hosts mcr).2 = some rancherError.ErrHostRepoEmpty ↔ mcr.hosts = []) ∧
    ((Hosts mcr).2 = none ↔ mcr.hosts ≠ []) ∧
    Containers newMetadataCachingRepository =
      ([], some rancherError.ErrContainerRepoEmpty) ∧
    Hosts newMetadataCachingRepository =
      ([], some rancherError.ErrHostRepoEmpty) ∧
    cachePopulateCycle newMetadataCachingRepository (Except.error e1)
      (Except.error e2) = newMetadataCachingRepository ∧
    Containers (refreshContainers mcr (Except.ok [])) =
      ([], some rancherError.ErrContainerRepoEmpty) ∧
    Hosts (refreshHosts mcr (Except.ok [])) =
      ([], some rancherError.ErrHostRepoEmpty) := by
  refine ⟨rfl, ?_, ?_, rfl, ?_, ?_, by decide, by decide, rfl, rfl, rfl⟩
  · by_cases h : mcr.containers.length = 0
    · simp [Containers, h, List.length_eq_zero.mp h]
    · have hne : mcr.containers ≠ [] := by
        intro hh; exact h (by simp [hh])
      simp [Containers, h, hne]
  · by_cases h : mcr.containers.length = 0
    · simp [Containers, h, List.length_eq_zero.mp h]
    · have hne : mcr.containers ≠ [] := by
        intro hh; exact h (by simp [hh])
      simp [Containers, h, hne]
  · by_cases h : mcr.hosts.length = 0
    · simp [Hosts, h, List.length_eq_zero.mp h]
    · have hne : mcr.hosts ≠ [] := by
        intro hh; exact h (by simp [hh])
      simp [Hosts, h, hne]
  · by_cases h : mcr.hosts.length = 0
    · simp [Hosts, h, List.length_eq_zero.mp h]
    · have hne : mcr.hosts ≠ [] := by
        intro hh; exact h (by simp [hh])
      simp [Hosts, h, hne]

theorem cycle_ok_ok_containers (mcr : metadataCachingRepository)
    (cs : List Container) (hs : List Host) :
    (cachePopulateCycle mcr (Except.ok cs) (Except.ok hs)).containers =
      cs.map (enrichContainer
        { containers := cs, containerMap := buildContainerMap cs,
          hosts := hs, hostMap := buildHostMap hs }) := rfl

theorem enrichContainer_on_built (cs : List Container) (hs : List Host)
    (c : Container) :
    enrichContainer
        { containers := cs, containerMap := buildContainerMap cs,
          hosts := hs, hostMap := buildHostMap hs } c =
      match mapFind (buildHostMap hs) c.host.uuid with
      | some h => { c with host := { c.host with name := h.name } }
      | none => c := by
  rw [enrichContainer_eq]

/-- Claim C2: after one cycle in which both fetches succeed, every
container of the snapshot carries as embedded host name exactly the name
stored in the host index under its host uuid, and the empty string when
its host uuid matches no host of the host snapshot; the matched host is
a genuine member of the host snapshot with that uuid, and nothing in the
cycle reports an unmatched uuid as an error (the cycle returns only the
new state). The hypothesis states that fetched containers come out of
the decode step, which always leaves the embedded host name empty. -/
theorem c2_enrichment_correctness (mcr : metadataCachingRepository)
    (cs : List Container) (hs : List Host)
    (hfresh : ∀ c ∈ cs, c.host.name = "") :
    ∀ c ∈ (cachePopulateCycle mcr (Except.ok cs) (Except.ok hs)).containers,
      c.host.name = (match mapFind (buildHostMap hs) c.host.uuid with
        | some h => h.name
        | none => "") ∧
      (mapFind (buildHostMap hs) c.host.uuid = none ↔
        ∀ h ∈ hs, h.uuid ≠ c.host.uuid) ∧
      (match mapFind (buildHostMap hs) c.host.uuid with
        | some h => h ∈ hs ∧ h.uuid = c.host.uuid
        | none => True) := by
  intro c hc
  rw [cycle_ok_ok_containers] at hc
  obtain ⟨c0, hc0, hceq⟩ := List.mem_map.mp hc
  subst hceq
  rw [enrichContainer_host_uuid]
  cases hfind : mapFind (buildHostMap hs) c0.host.uuid with
  | some h =>
    have hmem : h ∈ hs ∧ h.uuid = c0.host.uuid := by
      apply lastMatchBy_mem (fun h => h.uuid) hs c0.host.uuid h
      rw [← mapFind_buildHostMap]
      exact hfind
    refine ⟨?_, ?_, hmem⟩
    · rw [enrichContainer_on_built, hfind]
    · constructor
      · intro hfalse; exact absurd hfalse (by simp)
      · intro hall; exact absurd hmem.2 (hall h hmem.1)
  | none =>
    have hnone : ∀ h ∈ hs, h.uuid ≠ c0.host.uuid := by
      apply (lastMatchBy_eq_none_iff (fun h => h.uuid) hs c0.host.uuid).mp
      rw [← mapFind_buildHostMap]
      exact hfind
    refine ⟨?_, ⟨fun _ => hnone, fun _ => rfl⟩, trivial⟩
    · rw [enrichContainer_on_built, hfind]
      exact hfresh c0 hc0

/-- Witness for claim C2 at the specification scenario: one fetched
container named a with host uuid H1 and one fetched host H1 named
host-1; the enrichment hypothesis (freshly decoded containers carry an
empty embedded host name) is discharged by evaluation. -/
theorem c2_enrichment_correctness_witness :
    (∀ c ∈ csScenario, c.host.name = "") ∧
    ∀ c ∈ (cachePopulateCycle newMetadataCachingRepository
        (Except.ok csScenario) (Except.ok hsScenario)).containers,
      c.host.name = (match mapFind (buildHostMap hsScenario) c.host.uuid with
        | some h => h.name
        | none => "") ∧
      (mapFind (buildHostMap hsScenario) c.host.uuid = none ↔
        ∀ h ∈ hsScenario, h.uuid ≠ c.host.uuid) ∧
      (match mapFind (buildHostMap hsScenario) c.host.uuid with
        | some h => h ∈ hsScenario ∧ h.uuid = c.host.uuid
        | none => True) :=
  ⟨by decide,
   c2_enrichment_correctness newMetadataCachingRepository csScenario hsScenario
     (by decide)⟩

/-- Claim C6: in a cycle where the container fetch succeeds and the host
fetch fails, the host collection and its uuid index keep their prior
values, Hosts answers with the prior host data (and the repository-empty
error exactly when no host data existed), while the container snapshot
is the newly fetched data (identical up to the enrichment-written host
name, and literally identical when no prior host data exists to enrich
from); moreover neither refresh ever touches the other entity kind's
collection or index, for any fetch outcome. -/
theorem c6_independent_failure_isolation (mcr : metadataCachingRepository)
    (cs : List Container) (e : String) (m : metadataCachingRepository)
    (f : Except String (List Container)) (g : Except String (List Host)) :
    (cachePopulateCycle mcr (Except.ok cs) (Except.error e)).hosts =
      mcr.hosts ∧
    (cachePopulateCycle mcr (Except.ok cs) (Except.error e)).hostMap =
      mcr.hostMap ∧
    (Hosts (cachePopulateCycle mcr (Except.ok cs) (Except.error e))).1 =
      mcr.hosts ∧
    ((Hosts (cachePopulateCycle mcr (Except.ok cs) (Except.error e))).2 =
      some rancherError.ErrHostRepoEmpty ↔ mcr.hosts = []) ∧
    (cachePopulateCycle mcr (Except.ok cs) (Except.error e)).containers.map
        scrubHostName = cs.map scrubHostName ∧
    (mcr.hostMap = [] →
      (cachePopulateCycle mcr (Except.ok cs) (Except.error e)).containers = cs) ∧
    (refreshContainers m f).hosts = m.hosts ∧
    (refreshContainers m f).hostMap = m.hostMap ∧
    (refreshHosts m g).containers = m.containers ∧
    (refreshHosts m g).containerMap = m.containerMap := by
  refine ⟨rfl, rfl, rfl, ?_, ?_, ?_, ?_, ?_, ?_, ?_⟩
  · show ((if mcr.hosts.length = 0 then some rancherError.ErrHostRepoEmpty
      else none) = some rancherError.ErrHostRepoEmpty) ↔ mcr.hosts = []
    by_cases h : mcr.hosts.length = 0
    · simp [h, List.length_eq_zero.mp h]
    · have hne : mcr.hosts ≠ [] := by
        intro hh; exact h (by simp [hh])
      simp [h, hne]
  · show ((cs.map (enrichContainer
      { containers := cs, containerMap := buildContainerMap cs,
        hosts := mcr.hosts, hostMap := mcr.hostMap })).map scrubHostName) =
      cs.map scrubHostName
    exact map_scrub_enrich _ cs
  · intro hnil
    show cs.map (enrichContainer
      { containers := cs, containerMap := buildContainerMap cs,
        hosts := mcr.hosts, hostMap := mcr.hostMap }) = cs
    exact map_enrich_id_of_hostMap_nil _ hnil cs
  · cases f <;> rfl
  · cases f <;> rfl
  · cases g <;> rfl
  · cases g <;> rfl

/-- Witness for claim C6 at the specification scenario: host fetch fails
with an HTTP 404 while the container fetch succeeds on the never-yet
populated repository; the container snapshot is exactly the fetched list
(enrichment found no host data, so every embedded host name stays empty)
and Hosts reports the repository-empty error. -/
theorem c6_independent_failure_isolation_witness :
    (cachePopulateCycle newMetadataCachingRepository (Except.ok csScenario)
      (Except.error "HTTP 404")).containers = csScenario ∧
    (Hosts (cachePopulateCycle newMetadataCachingRepository
      (Except.ok csScenario) (Except.error "HTTP 404"))).2 =
      some rancherError.ErrHostRepoEmpty :=
  ⟨(c6_independent_failure_isolation newMetadataCachingRepository csScenario
      "HTTP 404" newMetadataCachingRepository (Except.ok [])
      (Except.ok [])).2.2.2.2.2.1 (by decide),
   ((c6_independent_failure_isolation newMetadataCachingRepository csScenario
      "HTTP 404" newMetadataCachingRepository (Except.ok [])
      (Except.ok [])).2.2.2.1).mpr (by decide)⟩

/-- Claim C7: after every successful refresh the name index (resp. uuid
index) has pairwise distinct keys, so it binds each name (uuid) to
exactly one entry, and looking any key up yields precisely the last
entry of the fetched list carrying that key (last-write-wins on
duplicated keys). -/
theorem c7_index_last_write_wins (cs : List Container) (hs : List Host)
    (nm u : String) (mcr : metadataCachingRepository) :
    (((refreshContainers mcr (Except.ok cs)).containerMap.map
        Prod.fst).Nodup) ∧
    mapFind (refreshContainers mcr (Except.ok cs)).containerMap nm =
      lastMatchBy (fun c => c.name) cs nm ∧
    (((refreshHosts mcr (Except.ok hs)).hostMap.map Prod.fst).Nodup) ∧
    mapFind (refreshHosts mcr (Except.ok hs)).hostMap u =
      lastMatchBy (fun h => h.uuid) hs u ∧
    (refreshContainers mcr (Except.ok cs)).containerMap =
      buildContainerMap cs ∧
    (refreshHosts mcr (Except.ok hs)).hostMap = buildHostMap hs := by
  refine ⟨?_, ?_, ?_, ?_, rfl, rfl⟩
  · show ((buildContainerMap cs).map Prod.fst).Nodup
    exact nodup_keys_buildMapBy _ cs
  · show mapFind (buildContainerMap cs) nm = _
    exact mapFind_buildContainerMap cs nm
  · show ((buildHostMap hs).map Prod.fst).Nodup
    exact nodup_keys_buildMapBy _ hs
  · show mapFind (buildHostMap hs) u = _
    exact mapFind_buildHostMap hs u

/-- Witness for claim C7 at concrete duplicated keys: two fetched
containers named a and two fetched hosts with uuid H1; each index binds
the key to the later entry, and the index keys are pairwise distinct. -/
theorem c7_index_last_write_wins_witness :
    mapFind (refreshContainers newMetadataCachingRepository
      (Except.ok [contScenario, contDup])).containerMap "a" = some contDup ∧
    mapFind (refreshHosts newMetadataCachingRepository
      (Except.ok [hostScenario, hostDup])).hostMap "H1" = some hostDup ∧
    (((refreshContainers newMetadataCachingRepository
      (Except.ok [contScenario, contDup])).containerMap.map
        Prod.fst).Nodup) :=
  ⟨((c7_index_last_write_wins [contScenario, contDup]
      [hostScenario, hostDup] "a" "H1" newMetadataCachingRepository).2.1).trans
      (by decide),
   ((c7_index_last_write_wins [contScenario, contDup]
      [hostScenario, hostDup] "a" "H1"
      newMetadataCachingRepository).2.2.2.1).trans (by decide),
   (c7_index_last_write_wins [contScenario, contDup] [hostScenario, hostDup]
      "a" "H1" newMetadataCachingRepository).1⟩

/-- Claim C8: in a cycle where both fetches succeed, the stored hosts
are literally the fetched hosts (ids and names untouched), and the
stored containers, in the slice and in the name index alike, agree with
the fetched containers on every field except the enrichment-written
embedded host name (scrubHostName erases exactly that field); the
snapshot length equals the fetched length, so the cache adds no entity
of its own; and in every cycle, whatever the fetch outcomes, the host
side is exactly what its own refresh produced and the container side
differs from what its own refresh produced at most in embedded host
names. -/
theorem c8_cache_writes_only_hostname (mcr : metadataCachingRepository)
    (cs : List Container) (hs : List Host)
    (cf : Except String (List Container)) (hf : Except String (List Host)) :
    (cachePopulateCycle mcr (Except.ok cs) (Except.ok hs)).hosts = hs ∧
    (cachePopulateCycle mcr (Except.ok cs) (Except.ok hs)).hostMap =
      buildHostMap hs ∧
    (cachePopulateCycle mcr (Except.ok cs) (Except.ok hs)).containers.map
        scrubHostName = cs.map scrubHostName ∧
    (cachePopulateCycle mcr (Except.ok cs) (Except.ok hs)).containers.length =
      cs.length ∧
    ((cachePopulateCycle mcr (Except.ok cs) (Except.ok hs)).containerMap.map
        (fun kv => (kv.1, scrubHostName kv.2))) =
      (buildContainerMap cs).map (fun kv => (kv.1, scrubHostName kv.2)) ∧
    (cachePopulateCycle mcr cf hf).hosts = (refreshHosts mcr hf).hosts ∧
    (cachePopulateCycle mcr cf hf).hostMap = (refreshHosts mcr hf).hostMap ∧
    (cachePopulateCycle mcr cf hf).containers.map scrubHostName =
      (refreshContainers mcr cf).containers.map scrubHostName := by
  refine ⟨rfl, rfl, ?_, ?_, ?_, ?_, ?_, ?_⟩
  · show ((cs.map (enrichContainer
      { containers := cs, containerMap := buildContainerMap cs,
        hosts := hs, hostMap := buildHostMap hs })).map scrubHostName) =
      cs.map scrubHostName
    exact map_scrub_enrich _ cs
  · show (cs.map (enrichContainer
      { containers := cs, containerMap := buildContainerMap cs,
        hosts := hs, hostMap := buildHostMap hs })).length = cs.length
    simp
  · show (((buildContainerMap cs).map (fun kv =>
      (kv.1, enrichContainer
        { containers := cs, containerMap := buildContainerMap cs,
          hosts := hs, hostMap := buildHostMap hs } kv.2))).map
        (fun kv => (kv.1, scrubHostName kv.2))) =
      (buildContainerMap cs).map (fun kv => (kv.1, scrubHostName kv.2))
    exact map_kv_scrub_enrich _ _
  · cases cf <;> cases hf <;> rfl
  · cases cf <;> cases hf <;> rfl
  · cases cf <;> cases hf <;>
      exact map_scrub_enrich _ _

/-- Witness for claim C8 at the specification scenario: the cycle stores
exactly the fetched host and a container differing from the fetched one
only in its embedded host name. -/
theorem c8_cache_writes_only_hostname_witness :
    (cachePopulateCycle newMetadataCachingRepository (Except.ok csScenario)
      (Except.ok hsScenario)).hosts = hsScenario ∧
    (cachePopulateCycle newMetadataCachingRepository (Except.ok csScenario)
      (Except.ok hsScenario)).containers.map scrubHostName =
      csScenario.map scrubHostName :=
  ⟨(c8_cache_writes_only_hostname newMetadataCachingRepository csScenario
      hsScenario (Except.ok []) (Except.ok [])).1,
   (c8_cache_writes_only_hostname newMetadataCachingRepository csScenario
      hsScenario (Except.ok []) (Except.ok [])).2.2.1⟩

theorem JValue.isNull_iff (v : JValue) : v.isNull = true ↔ v = JValue.null := by
  cases v <;> simp [JValue.isNull]

/-- Witness for claim C1 at concrete inputs: a failing fetch on the
populated scenario repository leaves the whole state untouched, and
Hosts keeps answering from the previous snapshot. -/
theorem c1_refresh_failure_preserves_snapshot_witness :
    refreshContainers repoPopulated (Except.error "boom") = repoPopulated ∧
    Hosts (refreshHosts repoPopulated (Except.error "boom")) =
      Hosts repoPopulated :=
  ⟨(c1_refresh_failure_preserves_snapshot repoPopulated "boom" "boom"
      "" "").1,
   (c1_refresh_failure_preserves_snapshot repoPopulated "boom" "boom"
      "" "").2.2.2.2.2⟩

/-- Witness for claim C4 at concrete inputs: the populated scenario
repository answers Containers without error, and the freshly constructed
repository answers with the repository-empty error. -/
theorem c4_bulk_lookup_empty_semantics_witness :
    (Containers repoPopulated).2 = none ∧
    Containers newMetadataCachingRepository =
      ([], some rancherError.ErrContainerRepoEmpty) :=
  ⟨((c4_bulk_lookup_empty_semantics repoPopulated "x" "y").2.2.1).mpr
      (by decide),
   (c4_bulk_lookup_empty_semantics repoPopulated "x" "y").2.2.2.2.2.2.1⟩

/-- Claim C5 analysis: the source's own comments call the replacement of
the (collection, index) pair atomic and synchronized, but the goroutine
body of refreshContainers performs the two field assignments
mcr.containerMap = cm and mcr.containers = cs as separate unsynchronized
writes, with no lock excluding readers. Under a sequentially consistent
interleaving, the state after the first write and before the second
exposes the pair (old collection, new index), which differs from both
the pre-refresh pair and the post-refresh pair: a reader interleaved
between the two writes observes a mixed pair, refuting the
atomic-replacement property at this concrete input. The first conjunct
checks that the completed refresh really is the sequential composition
of exactly these two write steps. -/
theorem c5_mixed_pair_observable :
    refreshContainers repoBefore (Except.ok [contAfter]) =
      writeContainersStep (writeContainerMapStep repoBefore
        (buildContainerMap [contAfter])) [contAfter] ∧
    observedContainerPair (writeContainerMapStep repoBefore
      (buildContainerMap [contAfter])) ≠ observedContainerPair repoBefore ∧
    observedContainerPair (writeContainerMapStep repoBefore
      (buildContainerMap [contAfter])) ≠
      observedContainerPair (refreshContainers repoBefore
        (Except.ok [contAfter])) :=
  ⟨rfl, by decide, by decide⟩

/-- Claim C9: on a container payload object whose required name, state
and primary_ip keys are present as strings, an absent-or-null
service_index (resp. host_uuid) leaves the parsed serviceIndex at 0
(resp. the host uuid at the empty string) with the parse succeeding, and
a string service_index yields the value parsed by strconv.ParseInt with
its error discarded; all four presence combinations are covered. -/
theorem c9_optional_fields_parse (data : List (String × JValue))
    (nm st ip : String)
    (hn : jLookup data "name" = JValue.str nm)
    (hs : jLookup data "state" = JValue.str st)
    (hp : jLookup data "primary_ip" = JValue.str ip) :
    ((jLookup data "service_index").isNull = true →
      (jLookup data "host_uuid").isNull = true →
      Container.unmarshalJSON data = Except.ok
        { name := nm, state := st, privateIP := ip, serviceIndex := 0,
          host := { uuid := "", name := "" } }) ∧
    (∀ s, jLookup data "service_index" = JValue.str s →
      (jLookup data "host_uuid").isNull = true →
      Container.unmarshalJSON data = Except.ok
        { name := nm, state := st, privateIP := ip,
          serviceIndex := parseIntGo s,
          host := { uuid := "", name := "" } }) ∧
    (∀ u, (jLookup data "service_index").isNull = true →
      jLookup data "host_uuid" = JValue.str u →
      Container.unmarshalJSON data = Except.ok
        { name := nm, state := st, privateIP := ip, serviceIndex := 0,
          host := { uuid := u, name := "" } }) ∧
    (∀ s u, jLookup data "service_index" = JValue.str s →
      jLookup data "host_uuid" = JValue.str u →
      Container.unmarshalJSON data = Except.ok
        { name := nm, state := st, privateIP := ip,
          serviceIndex := parseIntGo s,
          host := { uuid := u, name := "" } }) := by
  refine ⟨?_, ?_, ?_, ?_⟩
  · intro h1 h2
    rw [JValue.isNull_iff] at h1 h2
    simp only [Container.unmarshalJSON, hn, hs, hp, h1, h2, asString,
      JValue.isNull]
    rfl
  · intro s hsvc h2
    rw [JValue.isNull_iff] at h2
    simp only [Container.unmarshalJSON, hn, hs, hp, hsvc, h2, asString,
      JValue.isNull]
    rfl
  · intro u h1 hhost
    rw [JValue.isNull_iff] at h1
    simp only [Container.unmarshalJSON, hn, hs, hp, h1, hhost, asString,
      JValue.isNull]
    rfl
  · intro s u hsvc hhost
    simp only [Container.unmarshalJSON, hn, hs, hp, hsvc, hhost, asString,
      JValue.isNull]
    rfl

/-- Witness for claim C9 at concrete payloads: with required fields as
strings, a string service_index of 3 parses to serviceIndex 3 with an
absent host_uuid left empty, and a null host_uuid with absent
service_index leaves both fields at their zero values. -/
theorem c9_optional_fields_parse_witness :
    Container.unmarshalJSON
      [("name", JValue.str "a"), ("state", JValue.str "running"),
       ("primary_ip", JValue.str "10.0.0.1"),
       ("service_index", JValue.str "3")] =
      Except.ok
        { name := "a", state := "running", privateIP := "10.0.0.1",
          serviceIndex := parseIntGo "3",
          host := { uuid := "", name := "" } } ∧
    parseIntGo "3" = 3 ∧
    Container.unmarshalJSON
      [("name", JValue.str "a"), ("state", JValue.str "running"),
       ("primary_ip", JValue.str "10.0.0.1"), ("host_uuid", JValue.null)] =
      Except.ok
        { name := "a", state := "running", privateIP := "10.0.0.1",
          serviceIndex := 0, host := { uuid := "", name := "" } } :=
  ⟨(c9_optional_fields_parse
      [("name", JValue.str "a"), ("state", JValue.str "running"),
       ("primary_ip", JValue.str "10.0.0.1"),
       ("service_index", JValue.str "3")] "a" "running" "10.0.0.1"
      (by decide) (by decide) (by decide)).2.1 "3" (by decide) (by decide),
   by decide,
   (c9_optional_fields_parse
      [("name", JValue.str "a"), ("state", JValue.str "running"),
       ("primary_ip", JValue.str "10.0.0.1"), ("host_uuid", JValue.null)]
      "a" "running" "10.0.0.1"
      (by decide) (by decide) (by decide)).1 (by decide) (by decide)⟩

/-- Claim C10: concrete syntactically valid container payload objects
lacking the name, state or primary_ip key, or carrying a non-string
value there or in service_index or host_uuid, drive
Container.unmarshalJSON into a failing type assertion, modelled as the
runtime-fault result rather than a returned decode error; likewise
Host.unmarshalJSON for objects lacking a string uuid or name. -/
theorem c10_required_field_runtime_fault :
    Container.unmarshalJSON [("state", JValue.str "running"),
      ("primary_ip", JValue.str "10.0.0.1")] =
      Except.error GoPanic.typeAssertion ∧
    Container.unmarshalJSON [("name", JValue.num 3),
      ("state", JValue.str "running"),
      ("primary_ip", JValue.str "10.0.0.1")] =
      Except.error GoPanic.typeAssertion ∧
    Container.unmarshalJSON [("name", JValue.str "a"),
      ("primary_ip", JValue.str "10.0.0.1")] =
      Except.error GoPanic.typeAssertion ∧
    Container.unmarshalJSON [("name", JValue.str "a"),
      ("state", JValue.str "running")] =
      Except.error GoPanic.typeAssertion ∧
    Container.unmarshalJSON [("name", JValue.str "a"),
      ("state", JValue.str "running"),
      ("primary_ip", JValue.str "10.0.0.1"),
      ("service_index", JValue.num 2)] =
      Except.error GoPanic.typeAssertion ∧
    Container.unmarshalJSON [("name", JValue.str "a"),
      ("state", JValue.str "running"),
      ("primary_ip", JValue.str "10.0.0.1"),
      ("host_uuid", JValue.bool true)] =
      Except.error GoPanic.typeAssertion ∧
    Host.unmarshalJSON [("name", JValue.str "h")] =
      Except.error GoPanic.typeAssertion ∧
    Host.unmarshalJSON [("uuid", JValue.str "u"), ("name", JValue.num 1)] =
      Except.error GoPanic.typeAssertion :=
  ⟨rfl, rfl, rfl, rfl, rfl, rfl, rfl, rfl⟩
